import Mathlib

/-!
# A verification model of the iceoryx2 zero-copy publish/subscribe and event core

The repository's C++ surface (`publisher.cpp`, `listener.cpp`, `slice_tests.cpp`)
is a thin binding over the shared-memory IPC engine described in `spec.md`.
The engine itself is not part of the provided sources, so the definitions below
are modelled from the specification (each such definition says so in its doc
comment) while the publisher loop of `publisher.cpp` is translated directly
from that source file.  Concurrency is modelled by arbitrary sequential
interleavings of the data-path operations, and "bitwise equality" of payloads
and headers by equality of the modelled values.
-/

namespace Iox2

/-- The user-header type of the `publish_subscribe_with_user_header` example.
Fields are taken from their uses in `publisher.cpp` (`version`, `timestamp`);
the spec scenario S2 writes `{version:123, timestamp:80337+n}`. -/
structure CustomHeader where
  version : Nat
  timestamp : Nat
deriving DecidableEq

/-- Modelled from the spec: `loan_uninit` zero-initializes the user-header to
the type's default bit pattern (§4.5); for `CustomHeader` that is all-zero. -/
def CustomHeader.zeroed : CustomHeader := ⟨0, 0⟩

/-- Modelled from the spec: the per-slot portion of the sample state machine
(§3): `Free → LoanedUninit → LoanedInit → InFlight → Free`; `Borrowed` marks a
sample currently borrowed by a subscriber before release.  The transient
`PendingReclaim` stage is folded into `InFlight` (both count as not yet
returned to the pool). -/
inductive SlotState where
  | Free
  | LoanedUninit
  | LoanedInit
  | InFlight
  | Borrowed
deriving DecidableEq

def SlotState.isFree : SlotState → Bool
  | .Free => true
  | _ => false

def SlotState.isLoaned : SlotState → Bool
  | .LoanedUninit => true
  | .LoanedInit => true
  | _ => false

def SlotState.isInFlight : SlotState → Bool
  | .InFlight => true
  | _ => false

def SlotState.isBorrowed : SlotState → Bool
  | .Borrowed => true
  | _ => false

/-- Modelled from the spec: the fixed-block pool of the Shared-Memory Segment
Manager (§4.1), one state per pre-sized chunk. -/
structure Pool where
  slots : List SlotState
deriving DecidableEq

def Pool.capacity (p : Pool) : Nat := p.slots.length

def Pool.freeCount (p : Pool) : Nat := p.slots.countP SlotState.isFree

def Pool.loanedCount (p : Pool) : Nat := p.slots.countP SlotState.isLoaned

def Pool.inFlightCount (p : Pool) : Nat := p.slots.countP SlotState.isInFlight

def Pool.borrowedCount (p : Pool) : Nat := p.slots.countP SlotState.isBorrowed

/-- Modelled from the spec: pop of the lock-free stack of free chunk offsets
(§4.1): find a `Free` slot, mark it `LoanedUninit`, return its index. -/
def loanAux : List SlotState → Option (Nat × List SlotState)
  | [] => none
  | s :: rest =>
    if s = SlotState.Free then
      some (0, SlotState.LoanedUninit :: rest)
    else
      match loanAux rest with
      | none => none
      | some (i, rest') => some (i + 1, s :: rest')

/-- Modelled from the spec: obtain a free chunk from the pool (§4.1); `none`
models `OutOfMemory`. -/
def Pool.loan (p : Pool) : Option (Nat × Pool) :=
  match loanAux p.slots with
  | none => none
  | some (i, slots') => some (i, ⟨slots'⟩)

/-- Modelled from the spec: releasing a sample returns its slot to the pool's
free list (§4.5 `release`, §8 invariant 4). -/
def Pool.releaseUnsent (p : Pool) (i : Nat) : Pool := ⟨p.slots.set i SlotState.Free⟩

/-- Spec §7 `LoanError{OutOfMemory, ExceedsMaxLoanedSamples}`. -/
inductive LoanError where
  | OutOfMemory
  | ExceedsMaxLoanedSamples
deriving DecidableEq

/-- Spec §7 `SendError{ConnectionBufferFull, LostConnection}`. -/
inductive SendError where
  | ConnectionBufferFull
  | LostConnection
deriving DecidableEq

/-- Modelled from the spec: an uninitialized loaned sample (§4.5
`loan_uninit`): a pool slot with a user-header and a not-yet-written payload. -/
structure SampleMut (α : Type) where
  slot : Nat
  user_header : CustomHeader
  payload : Option α
deriving DecidableEq

/-- Modelled from the spec: a loaned sample after `write_payload` (§4.5
`SampleMutInit`). -/
structure SampleMutInit (α : Type) where
  slot : Nat
  user_header : CustomHeader
  payload : α
deriving DecidableEq

/-- Modelled from the spec: what a connection transports and a subscriber
reads: the `[user_header | payload]` region of a sample (§3). -/
structure Sample (α : Type) where
  user_header : CustomHeader
  payload : α
deriving DecidableEq

/-- Modelled from the spec: `write_payload(sample, value)` moves the user
value into the payload area (§4.5), a bitwise copy modelled as storing the
value itself. -/
def SampleMut.write_payload {α : Type} (s : SampleMut α) (v : α) : SampleMutInit α :=
  ⟨s.slot, s.user_header, v⟩

/-- Modelled from the spec: publisher-side allocator state: the fixed-block
pool plus the count of currently loaned samples, bounded by
`max_loaned_samples` (§4.1, §7). -/
structure PublisherState where
  pool : Pool
  max_loaned_samples : Nat
  loaned : Nat
deriving DecidableEq

/-- Modelled from the spec: `loan_uninit() -> SampleMut | LoanError` (§4.5):
obtains a free chunk from the pool without blocking (a total pure function
here); the user-header is zero-initialized; exceeding the loan bound or an
empty pool yields the corresponding `LoanError`. -/
def PublisherState.loan_uninit {α : Type} (p : PublisherState) :
    Except LoanError (SampleMut α × PublisherState) :=
  if p.max_loaned_samples ≤ p.loaned then
    .error .ExceedsMaxLoanedSamples
  else
    match p.pool.loan with
    | none => .error .OutOfMemory
    | some (i, pool') =>
      .ok (⟨i, CustomHeader.zeroed, none⟩, ⟨pool', p.max_loaned_samples, p.loaned + 1⟩)

/-- Modelled from the spec: the SPSC bounded queue of a Connection (§4.2),
transporting sample handles; `entries` is oldest-first. -/
structure SpscQueue (α : Type) where
  capacity : Nat
  entries : List α
deriving DecidableEq

/-- Modelled from the spec: publishing one handle into the queue (§4.2): if
the queue is full and `enable_safe_overflow` is true the oldest entry is
overwritten; if it is full and the flag is false the push fails with
`ConnectionBufferFull`. -/
def SpscQueue.push {α : Type} (so : Bool) (q : SpscQueue α) (x : α) :
    Except SendError (SpscQueue α) :=
  if q.entries.length < q.capacity then
    .ok ⟨q.capacity, q.entries ++ [x]⟩
  else if so then
    .ok ⟨q.capacity, q.entries.tail ++ [x]⟩
  else
    .error .ConnectionBufferFull

/-- Modelled from the spec: the consumer side of the SPSC queue: dequeue the
oldest handle, if any (§4.5 `receive`). -/
def SpscQueue.pop {α : Type} (q : SpscQueue α) : Option (α × SpscQueue α) :=
  match q.entries with
  | [] => none
  | x :: rest => some (x, ⟨q.capacity, rest⟩)

def SpscQueue.drainFuel {α : Type} : Nat → SpscQueue α → List α
  | 0, _ => []
  | n + 1, q =>
    match q.pop with
    | none => []
    | some (x, q') => x :: drainFuel n q'

/-- The trace a subscriber obtains by calling `receive` (i.e. `pop`)
repeatedly until the queue is empty. -/
def SpscQueue.drainAll {α : Type} (q : SpscQueue α) : List α :=
  SpscQueue.drainFuel q.entries.length q

/-- Modelled from the spec: `send` inserts the sample's handle into each
subscriber's SPSC queue; partial failures are per-connection (§4.5). -/
def sendToAll {α : Type} (so : Bool) (conns : List (SpscQueue α)) (x : α) :
    List (Except SendError (SpscQueue α)) :=
  conns.map (fun q => q.push so x)

/-- One data-path operation on a single Publisher→Subscriber Connection:
the publisher sends a sample, or the subscriber attempts one receive. -/
inductive ConnOp (α : Type) where
  | send (x : α)
  | receive
deriving DecidableEq

/-- Modelled from the spec: an arbitrary interleaving of sends and receives on
one Connection (§4.5).  Returns the final queue and the trace of samples the
subscriber observed, in observation order.  A failed send (full queue, no safe
overflow) delivers nothing to this subscriber. -/
def runConn {α : Type} (so : Bool) : SpscQueue α → List (ConnOp α) → SpscQueue α × List α
  | q, [] => (q, [])
  | q, .send x :: ops =>
    match q.push so x with
    | .ok q' => runConn so q' ops
    | .error _ => runConn so q ops
  | q, .receive :: ops =>
    match q.pop with
    | none => runConn so q ops
    | some (x, q') =>
      let r := runConn so q' ops
      (r.1, x :: r.2)

/-- The samples the publisher attempted to send, in publish order. -/
def sentTrace {α : Type} : List (ConnOp α) → List α
  | [] => []
  | .send x :: ops => x :: sentTrace ops
  | .receive :: ops => sentTrace ops

/-- Modelled from the spec: the per-publisher ring of the last `history_size`
sent samples, retained for late-joining subscribers (§3 HistoryBuffer). -/
structure HistoryBuffer (α : Type) where
  size : Nat
  ring : List α
deriving DecidableEq

/-- Modelled from the spec: `send` inserts the sample into the history buffer,
evicting the oldest when the ring is at `history_size` (§4.5). -/
def HistoryBuffer.insert {α : Type} (h : HistoryBuffer α) (x : α) : HistoryBuffer α :=
  if h.ring.length < h.size then
    ⟨h.size, h.ring ++ [x]⟩
  else
    ⟨h.size, h.ring.tail ++ [x]⟩

/-- Modelled from the spec: `update_connections` flushes the history, oldest
first, into a freshly joined subscriber's queue (§4.5); a failed push delivers
nothing. -/
def HistoryBuffer.flushTo {α : Type} (h : HistoryBuffer α) (so : Bool)
    (q : SpscQueue α) : SpscQueue α :=
  h.ring.foldl
    (fun acc x =>
      match acc.push so x with
      | .ok acc' => acc'
      | .error _ => acc)
    q

/-- Aggregate error of the publish pipeline: the loan or the send step failed. -/
inductive PublishError where
  | Loan (e : LoanError)
  | Send (e : SendError)
deriving DecidableEq

/-- Modelled from the spec: one publisher connected to one subscriber through
one Connection (§3), together with the publisher's history buffer and the
service's `enable_safe_overflow` setting. -/
structure System (α : Type) where
  pub : PublisherState
  conn : SpscQueue (Sample α)
  history : HistoryBuffer (Sample α)
  safe_overflow : Bool
deriving DecidableEq

/-- Modelled from the spec: `send(sample)` (§4.5): marks the slot `InFlight`,
inserts the sample into the subscriber's SPSC queue and into the history
buffer; the loaned-count drops as the sample leaves the publisher's hands. -/
def System.send {α : Type} (sys : System α) (s : SampleMutInit α) :
    Except SendError (System α) :=
  let smp : Sample α := ⟨s.user_header, s.payload⟩
  match sys.conn.push sys.safe_overflow smp with
  | .error e => .error e
  | .ok q' =>
    .ok { sys with
          pub := ⟨⟨sys.pub.pool.slots.set s.slot SlotState.InFlight⟩,
                  sys.pub.max_loaned_samples, sys.pub.loaned - 1⟩,
          conn := q',
          history := sys.history.insert smp }

/-- Modelled from the spec: the publish path `loan_uninit` → `write_payload` →
`send` (§2 data flow), leaving the user-header at its zero-initialized value. -/
def System.publish {α : Type} (sys : System α) (v : α) : Except PublishError (System α) :=
  match sys.pub.loan_uninit (α := α) with
  | .error e => .error (.Loan e)
  | .ok (smp, pub') =>
    match System.send { sys with pub := pub' } (smp.write_payload v) with
    | .error e => .error (.Send e)
    | .ok sys' => .ok sys'

/-- The body of the publisher loop of `publisher.cpp` (translated from that
source file): loan, set `user_header.version = 123` and
`user_header.timestamp = 80337 + counter`, write payload `counter`, send. -/
def publisherIteration (sys : System Nat) (counter : Nat) :
    Except PublishError (System Nat) :=
  match sys.pub.loan_uninit (α := Nat) with
  | .error e => .error (.Loan e)
  | .ok (sample, pub') =>
    let sample := { sample with user_header := { sample.user_header with version := 123 } }
    let sample := { sample with user_header := { sample.user_header with timestamp := 80337 + counter } }
    let initialized_sample := sample.write_payload counter
    match System.send { sys with pub := pub' } initialized_sample with
    | .error e => .error (.Send e)
    | .ok sys' => .ok sys'

/-- The history buffer of a publisher with `history_size = 5` after sending
samples `1..=10` while no subscriber is connected (spec scenario S3). -/
def historyAfterBurst : HistoryBuffer Nat :=
  (List.range' 1 10).foldl HistoryBuffer.insert ⟨5, []⟩

/-- The queue of a subscriber (buffer size 8) that joins after the burst:
`update_connections` flushes the retained history into its fresh queue. -/
def lateJoinerQueue : SpscQueue Nat :=
  historyAfterBurst.flushTo false ⟨8, []⟩

/-- Spec scenario S1, overflow half: nine sends of `1..=9` into one Connection
whose subscriber (buffer size 8) never receives, followed by nine receive
attempts. -/
def overflowScenarioOps : List (ConnOp Nat) :=
  (List.range' 1 9).map ConnOp.send ++ List.replicate 9 ConnOp.receive

/-- Spec §3: the messaging pattern of a ServiceDescriptor. -/
inductive MessagingPattern where
  | PubSub
  | Event
deriving DecidableEq

/-- Modelled from the spec: `StaticConfig(PubSub)` (§3). -/
structure StaticConfigPubSub where
  max_publishers : Nat
  max_subscribers : Nat
  max_nodes : Nat
  history_size : Nat
  subscriber_buffer_size : Nat
  subscriber_max_borrowed_samples : Nat
  enable_safe_overflow : Bool
deriving DecidableEq

/-- Modelled from the spec: `StaticConfig(Event)` (§3). -/
structure StaticConfigEvent where
  max_notifiers : Nat
  max_listeners : Nat
  max_nodes : Nat
  event_id_max_value : Nat
  deadline : Option Nat
deriving DecidableEq

/-- Modelled from the spec: `static_config` varies per messaging pattern (§3). -/
inductive StaticConfig where
  | pubSub (c : StaticConfigPubSub)
  | event (c : StaticConfigEvent)
deriving DecidableEq

/-- Modelled from the spec: the ServiceDescriptor record (§3); type identities
are opaque identifiers, so bit-identity of descriptors is plain equality. -/
structure ServiceDescriptor where
  name : String
  messaging_pattern : MessagingPattern
  payload_type_id : Nat
  user_header_type_id : Nat
  static_config : StaticConfig
deriving DecidableEq

/-- Spec §7: the compatibility errors of `open_or_create`. -/
inductive OpenError where
  | IncompatibleTypes
  | IncompatibleConfig
deriving DecidableEq

/-- Modelled from the spec: the Service Directory (§4.4): per ServiceName at
most one shared artifact holding the creating descriptor, the artifact's
identity, and its participant refcount; `nextId` names the next artifact. -/
structure Directory where
  lookup : String → Option (ServiceDescriptor × Nat × Nat)
  nextId : Nat

/-- Modelled from the spec: `open_or_create(desc)` (§4.4): create the artifact
when the name is unbound; attach (incrementing the refcount) when the existing
descriptor is bit-identical; otherwise fail with `IncompatibleTypes` when the
pattern or a type identity differs and `IncompatibleConfig` when only the
static config differs. -/
def Directory.open_or_create (d : Directory) (desc : ServiceDescriptor) :
    Directory × Except OpenError Nat :=
  match d.lookup desc.name with
  | none =>
    (⟨fun n => if n = desc.name then some (desc, d.nextId, 1) else d.lookup n,
      d.nextId + 1⟩,
     .ok d.nextId)
  | some (existing, aid, rc) =>
    if existing = desc then
      (⟨fun n => if n = desc.name then some (existing, aid, rc + 1) else d.lookup n,
        d.nextId⟩,
       .ok aid)
    else if existing.messaging_pattern = desc.messaging_pattern ∧
            existing.payload_type_id = desc.payload_type_id ∧
            existing.user_header_type_id = desc.user_header_type_id then
      (d, .error .IncompatibleConfig)
    else
      (d, .error .IncompatibleTypes)

/-- `n` further `open_or_create` calls with the same descriptor, performed
sequentially (the model of concurrent callers: an arbitrary interleaving of
their critical sections, §4.4); collects every caller's outcome. -/
def ocRepeat (d : Directory) (desc : ServiceDescriptor) :
    Nat → Directory × List (Except OpenError Nat)
  | 0 => (d, [])
  | n + 1 =>
    let step := d.open_or_create desc
    let rest := ocRepeat step.1 desc n
    (rest.1, step.2 :: rest.2)

/-- A directory with no artifact at all. -/
def emptyDirectory : Directory := ⟨fun _ => none, 0⟩

/-- The descriptor the publish/subscribe example builds for
`"My/Funk/ServiceName"` (type identities are opaque ids here). -/
def descPubSub : ServiceDescriptor :=
  ⟨"My/Funk/ServiceName", .PubSub, 1, 2, .pubSub ⟨1, 1, 2, 0, 8, 2, false⟩⟩

/-- The same name opened with a different payload type (spec scenario S6). -/
def descPubSub64 : ServiceDescriptor := { descPubSub with payload_type_id := 3 }

/-- The directory after the example service is created in an empty directory. -/
def dirAfterCreate : Directory := (emptyDirectory.open_or_create descPubSub).1

/-- Spec §7 / §4.6: the notifier-side validation error. -/
inductive NotifyError where
  | EventIdOutOfRange
deriving DecidableEq

/-- Modelled from the spec: the Event Engine state shared by a notifier and a
listener (§4.6): the immutable `event_id_max_value` and the pending-id set
(kept duplicate-free, so equal pending ids coalesce). -/
structure EventService where
  event_id_max_value : Nat
  pending : List Nat
deriving DecidableEq

/-- Modelled from the spec: `notify(event_id)` (§4.6): validates
`event_id ≤ event_id_max_value`; on failure nothing is delivered; on success
the id joins the pending set, coalescing with an equal pending id. -/
def EventService.notify (s : EventService) (id : Nat) :
    EventService × Except NotifyError Unit :=
  if s.event_id_max_value < id then
    (s, .error .EventIdOutOfRange)
  else
    (⟨s.event_id_max_value,
      if id ∈ s.pending then s.pending else s.pending ++ [id]⟩,
     .ok ())

def listMin : List Nat → Option Nat
  | [] => none
  | x :: rest =>
    match listMin rest with
    | none => some x
    | some m => some (min x m)

/-- Modelled from the spec: `try_wait_one()` (§4.6): returns one pending id,
lowest-first, removing it from the pending set; `none` when nothing pends. -/
def EventService.tryWaitOne (s : EventService) : EventService × Option Nat :=
  match listMin s.pending with
  | none => (s, none)
  | some m => (⟨s.event_id_max_value, s.pending.erase m⟩, some m)

/-- One operation of an event execution: a notifier notifies an id, or the
listener attempts one non-blocking wait. -/
inductive EventOp where
  | notifyOp (id : Nat)
  | waitOp
deriving DecidableEq

/-- Modelled from the spec: an arbitrary interleaving of notifications and
listener waits (§4.6); returns the final state and the trace of ids the
listener received. -/
def runEvents : EventService → List EventOp → EventService × List Nat
  | s, [] => (s, [])
  | s, .notifyOp id :: ops => runEvents (s.notify id).1 ops
  | s, .waitOp :: ops =>
    match s.tryWaitOne with
    | (s', none) => runEvents s' ops
    | (s', some m) =>
      let r := runEvents s' ops
      (r.1, m :: r.2)

/-- The ids successfully notified in an execution: those whose `notify` passed
the `event_id_max_value` validation. -/
def okNotified (maxv : Nat) : List EventOp → List Nat
  | [] => []
  | .notifyOp id :: ops => if id ≤ maxv then id :: okNotified maxv ops else okNotified maxv ops
  | .waitOp :: ops => okNotified maxv ops

theorem push_cases {α : Type} (so : Bool) (q : SpscQueue α) (x : α) :
    (q.entries.length < q.capacity ∧ q.push so x = .ok ⟨q.capacity, q.entries ++ [x]⟩) ∨
    (¬ q.entries.length < q.capacity ∧ so = true ∧
      q.push so x = .ok ⟨q.capacity, q.entries.tail ++ [x]⟩) ∨
    (¬ q.entries.length < q.capacity ∧ so = false ∧
      q.push so x = .error .ConnectionBufferFull) := by
  by_cases h1 : q.entries.length < q.capacity
  · exact Or.inl ⟨h1, by simp [SpscQueue.push, h1]⟩
  · cases so with
    | true => exact Or.inr (Or.inl ⟨h1, rfl, by simp [SpscQueue.push, h1]⟩)
    | false => exact Or.inr (Or.inr ⟨h1, rfl, by simp [SpscQueue.push, h1]⟩)

theorem drainFuel_entries {α : Type} (l : List α) (cap : Nat) :
    SpscQueue.drainFuel l.length ⟨cap, l⟩ = l := by
  induction l with
  | nil => rfl
  | cons x rest ih => simp [SpscQueue.drainFuel, SpscQueue.pop, ih]

/-- Receiving repeatedly until the queue is empty yields exactly the queued
entries, oldest first. -/
theorem drainAll_eq_entries {α : Type} (q : SpscQueue α) : q.drainAll = q.entries := by
  cases q with
  | mk cap l => exact drainFuel_entries l cap

theorem runConn_received_sublist {α : Type} (so : Bool) (ops : List (ConnOp α)) :
    ∀ q : SpscQueue α, (runConn so q ops).2.Sublist (q.entries ++ sentTrace ops) := by
  induction ops with
  | nil => intro q; simp [runConn, sentTrace]
  | cons op ops ih =>
    intro q
    cases op with
    | send x =>
      rcases push_cases so q x with ⟨h1, hp⟩ | ⟨h1, hso, hp⟩ | ⟨h1, hso, hp⟩
      · rw [runConn, hp]
        refine (ih _).trans ?_
        simp [sentTrace]
      · rw [runConn, hp]
        refine (ih _).trans ?_
        have hs : List.Sublist ((q.entries.tail ++ [x]) ++ sentTrace ops)
            ((q.entries ++ [x]) ++ sentTrace ops) :=
          List.Sublist.append
            (List.Sublist.append (List.tail_sublist _) (List.Sublist.refl _))
            (List.Sublist.refl _)
        simpa [sentTrace, List.append_assoc] using hs
      · rw [runConn, hp]
        refine (ih q).trans ?_
        simp only [sentTrace]
        exact List.Sublist.append (List.Sublist.refl _) ((List.Sublist.refl _).cons x)
    | receive =>
      cases hq : q.entries with
      | nil =>
        rw [runConn]
        simp only [SpscQueue.pop, hq]
        simpa [hq] using ih q
      | cons y rest =>
        rw [runConn]
        simp only [SpscQueue.pop, hq]
        simp only [sentTrace, hq, List.cons_append]
        exact (ih ⟨q.capacity, rest⟩).cons₂ y

/-- C2: on every single Publisher→Subscriber Connection, for any value of
`enable_safe_overflow` and any interleaving of sends and receives starting
from an empty queue, the trace the subscriber observes is an order-preserving
subsequence of the trace of sent samples: the subscriber may see gaps (safe
overflow drops the oldest entries) but never a reordering, so whenever it
observes both `s1` (sent first) and `s2`, it observes `s1` before `s2`. -/
theorem connection_fifo_no_reorder {α : Type} (so : Bool) (cap : Nat)
    (ops : List (ConnOp α)) :
    (runConn so ⟨cap, []⟩ ops).2.Sublist (sentTrace ops) := by
  simpa using runConn_received_sublist so ops ⟨cap, []⟩

/-- C6: with `history_size = 5`, after the publisher sends `1..=10` with no
subscriber connected, the retained history is exactly `6..=10`; a subscriber
joining afterwards has that history flushed into its queue and receives
`6, 7, 8, 9, 10` in order, after which its queue yields nothing until new
sends occur. -/
theorem late_joiner_history_delivery :
    historyAfterBurst.ring = [6, 7, 8, 9, 10] ∧
    (runConn false lateJoinerQueue (List.replicate 6 ConnOp.receive)).2 =
      [6, 7, 8, 9, 10] ∧
    (runConn false lateJoinerQueue (List.replicate 6 ConnOp.receive)).1.pop = none := by
  decide

/-- C3: when a subscriber's queue is full, `send` with
`enable_safe_overflow = false` yields `ConnectionBufferFull` for exactly that
subscriber while every other connected subscriber with room still receives the
sample; with `enable_safe_overflow = true` a push into a full queue succeeds
and overwrites the oldest entry; concretely, with buffer size 8 and no
receives during sends `1..=9`, the subscriber later observes exactly
`2..=9`, the last 8 of `1..=9`. -/
theorem full_queue_send_behaviour :
    (∀ (conns : List (SpscQueue Nat)) (x : Nat) (i : Nat) (q : SpscQueue Nat),
        conns[i]? = some q → q.capacity ≤ q.entries.length →
        (sendToAll false conns x)[i]? = some (.error .ConnectionBufferFull)) ∧
    (∀ (so : Bool) (conns : List (SpscQueue Nat)) (x : Nat) (j : Nat) (q : SpscQueue Nat),
        conns[j]? = some q → q.entries.length < q.capacity →
        (sendToAll so conns x)[j]? = some (.ok ⟨q.capacity, q.entries ++ [x]⟩)) ∧
    (∀ (q : SpscQueue Nat) (x : Nat), q.capacity ≤ q.entries.length →
        q.push true x = .ok ⟨q.capacity, q.entries.tail ++ [x]⟩) ∧
    (runConn true ⟨8, []⟩ overflowScenarioOps).2 = [2, 3, 4, 5, 6, 7, 8, 9] := by
  refine ⟨?_, ?_, ?_, by decide⟩
  · intro conns x i q hq hfull
    simp [sendToAll, List.getElem?_map, hq, SpscQueue.push, Nat.not_lt.2 hfull]
  · intro so conns x j q hq hroom
    simp [sendToAll, List.getElem?_map, hq, SpscQueue.push, hroom]
  · intro q x hfull
    simp [SpscQueue.push, Nat.not_lt.2 hfull]

theorem loanAux_free {l l' : List SlotState} {i : Nat}
    (h : loanAux l = some (i, l')) :
    l[i]? = some SlotState.Free ∧ l'.set i SlotState.Free = l ∧
    l'[i]? = some SlotState.LoanedUninit := by
  induction l generalizing i l' with
  | nil => simp [loanAux] at h
  | cons s rest ih =>
    unfold loanAux at h
    split at h
    · rename_i hs
      rw [Option.some.injEq, Prod.mk.injEq] at h
      obtain ⟨hi, hl⟩ := h
      subst hi
      subst hl
      simp [hs]
    · rename_i hs
      cases hr : loanAux rest with
      | none => rw [hr] at h; cases h
      | some pr =>
        obtain ⟨j, rest'⟩ := pr
        rw [hr] at h
        rw [Option.some.injEq, Prod.mk.injEq] at h
        obtain ⟨hi, hl⟩ := h
        subst hi
        subst hl
        obtain ⟨h1, h2, h3⟩ := ih hr
        exact ⟨by simpa using h1, by simpa [List.set] using h2, by simpa using h3⟩

theorem pool_loan_spec {p : Pool} {i : Nat} {p' : Pool}
    (h : p.loan = some (i, p')) :
    p.slots[i]? = some SlotState.Free ∧ p'.releaseUnsent i = p ∧
    p'.slots[i]? = some SlotState.LoanedUninit := by
  unfold Pool.loan at h
  cases hl : loanAux p.slots with
  | none => rw [hl] at h; cases h
  | some pr =>
    obtain ⟨j, slots'⟩ := pr
    rw [hl] at h
    simp only [Option.some.injEq, Prod.mk.injEq] at h
    obtain ⟨hi, hp'⟩ := h
    subst hi
    obtain ⟨h1, h2, h3⟩ := loanAux_free hl
    refine ⟨h1, ?_, by rw [← hp']; exact h3⟩
    rw [← hp']
    unfold Pool.releaseUnsent
    cases p with
    | mk slots => simpa using h2

theorem counts_partition (l : List SlotState) :
    l.countP SlotState.isFree +
      (l.countP SlotState.isLoaned + l.countP SlotState.isInFlight +
        l.countP SlotState.isBorrowed) = l.length := by
  induction l with
  | nil => rfl
  | cons s rest ih =>
    cases s <;>
      simp [List.countP_cons, SlotState.isFree, SlotState.isLoaned,
        SlotState.isInFlight, SlotState.isBorrowed] <;>
      omega

/-- C9: a successful `loan_uninit` takes its slot from the pool's free list,
and releasing that sample without sending it restores the pool exactly (the
slot returns to `Free`); moreover in every pool state the free-slot count
equals the pool capacity minus the loaned, in-flight, and borrowed counts. -/
theorem loan_release_conservation (p : Pool) (i : Nat) (p' : Pool)
    (h : p.loan = some (i, p')) :
    p'.releaseUnsent i = p ∧
    ∀ q : Pool,
      q.freeCount = q.capacity - (q.loanedCount + q.inFlightCount + q.borrowedCount) := by
  refine ⟨(pool_loan_spec h).2.1, ?_⟩
  intro q
  have hq := counts_partition q.slots
  simp only [Pool.freeCount, Pool.capacity, Pool.loanedCount, Pool.inFlightCount,
    Pool.borrowedCount]
  omega

theorem loan_release_conservation_witness :
    Pool.releaseUnsent ⟨[SlotState.LoanedUninit, SlotState.Borrowed]⟩ 0 =
      (⟨[SlotState.Free, SlotState.Borrowed]⟩ : Pool) ∧
    Pool.freeCount ⟨[SlotState.Free, SlotState.Borrowed]⟩ =
      Pool.capacity ⟨[SlotState.Free, SlotState.Borrowed]⟩ -
        (Pool.loanedCount ⟨[SlotState.Free, SlotState.Borrowed]⟩ +
          Pool.inFlightCount ⟨[SlotState.Free, SlotState.Borrowed]⟩ +
          Pool.borrowedCount ⟨[SlotState.Free, SlotState.Borrowed]⟩) :=
  ⟨(loan_release_conservation ⟨[SlotState.Free, SlotState.Borrowed]⟩ 0
      ⟨[SlotState.LoanedUninit, SlotState.Borrowed]⟩ rfl).1,
   (loan_release_conservation ⟨[SlotState.Free, SlotState.Borrowed]⟩ 0
      ⟨[SlotState.LoanedUninit, SlotState.Borrowed]⟩ rfl).2
      ⟨[SlotState.Free, SlotState.Borrowed]⟩⟩

/-- C7: every successful `loan_uninit` yields a sample whose user-header is
zero-initialized to the header type's default bit pattern and whose payload is
still unwritten; the slot comes from the pool's free list (it was `Free` and
is now `LoanedUninit`), obtained by a total pure function (no blocking); the
failure cases return a `LoanError` by the result type. -/
theorem loan_uninit_zeroed {α : Type} (p : PublisherState) (s : SampleMut α)
    (p' : PublisherState) (h : p.loan_uninit = .ok (s, p')) :
    s.user_header = CustomHeader.zeroed ∧ s.payload = none ∧
    p.pool.slots[s.slot]? = some SlotState.Free ∧
    p'.pool.slots[s.slot]? = some SlotState.LoanedUninit ∧
    p'.loaned = p.loaned + 1 := by
  unfold PublisherState.loan_uninit at h
  split at h
  · cases h
  · cases hl : p.pool.loan with
    | none => rw [hl] at h; cases h
    | some pr =>
      obtain ⟨i, pool'⟩ := pr
      rw [hl] at h
      simp only [Except.ok.injEq, Prod.mk.injEq] at h
      obtain ⟨hs, hp'⟩ := h
      subst hs
      obtain ⟨h1, _, h3⟩ := pool_loan_spec hl
      refine ⟨rfl, rfl, h1, ?_, ?_⟩
      · rw [← hp']; exact h3
      · rw [← hp']

theorem loan_uninit_zeroed_witness :
    (⟨0, CustomHeader.zeroed, none⟩ : SampleMut Nat).user_header = CustomHeader.zeroed ∧
    (⟨0, CustomHeader.zeroed, none⟩ : SampleMut Nat).payload = none ∧
    (⟨⟨[SlotState.Free]⟩, 1, 0⟩ : PublisherState).pool.slots[
      (⟨0, CustomHeader.zeroed, none⟩ : SampleMut Nat).slot]? = some SlotState.Free ∧
    (⟨⟨[SlotState.LoanedUninit]⟩, 1, 1⟩ : PublisherState).pool.slots[
      (⟨0, CustomHeader.zeroed, none⟩ : SampleMut Nat).slot]? = some SlotState.LoanedUninit ∧
    (⟨⟨[SlotState.LoanedUninit]⟩, 1, 1⟩ : PublisherState).loaned =
      (⟨⟨[SlotState.Free]⟩, 1, 0⟩ : PublisherState).loaned + 1 :=
  loan_uninit_zeroed ⟨⟨[SlotState.Free]⟩, 1, 0⟩ ⟨0, CustomHeader.zeroed, none⟩
    ⟨⟨[SlotState.LoanedUninit]⟩, 1, 1⟩ rfl

theorem send_conn_char {α : Type} (sys : System α) (s : SampleMutInit α)
    (sys' : System α) (h : System.send sys s = .ok sys') :
    sys'.conn.entries = sys.conn.entries ++ [⟨s.user_header, s.payload⟩] ∨
    sys'.conn.entries = sys.conn.entries.tail ++ [⟨s.user_header, s.payload⟩] := by
  simp only [System.send] at h
  rcases push_cases sys.safe_overflow sys.conn ⟨s.user_header, s.payload⟩ with
    ⟨h1, hp⟩ | ⟨h1, hso, hp⟩ | ⟨h1, hso, hp⟩ <;> rw [hp] at h
  · simp only [Except.ok.injEq] at h
    subst h
    left; rfl
  · simp only [Except.ok.injEq] at h
    subst h
    right; rfl
  · cases h

theorem send_ok_drain {α : Type} (sysA : System α) (s : SampleMutInit α)
    (sysB : System α) (h : System.send sysA s = .ok sysB) :
    sysB.conn.drainAll.getLast? = some ⟨s.user_header, s.payload⟩ := by
  rcases send_conn_char sysA s sysB h with hc | hc <;>
    rw [drainAll_eq_entries, hc] <;> simp [List.getLast?_concat]

/-- C1: for every payload value `v`, if the publisher performs `loan_uninit`,
`write_payload(v)`, `send` and this succeeds, then the sample delivered on the
connection (the last entry of the subscriber's receive trace when it drains
the queue) carries a payload equal to `v`: receive after publish yields `v`
bit for bit. -/
theorem publish_receive_roundtrip {α : Type} (sys sys' : System α) (v : α)
    (h : sys.publish v = .ok sys') :
    ∃ smp : Sample α, sys'.conn.drainAll.getLast? = some smp ∧ smp.payload = v := by
  simp only [System.publish] at h
  split at h
  · cases h
  · rename_i smp0 pub' hl
    split at h
    · cases h
    · rename_i sysX hs
      simp only [Except.ok.injEq] at h
      subst h
      exact ⟨⟨smp0.user_header, v⟩, send_ok_drain _ _ _ hs, rfl⟩

theorem publish_receive_roundtrip_witness :
    ∃ smp : Sample Nat,
      (⟨⟨⟨[SlotState.InFlight]⟩, 1, 0⟩, ⟨4, [⟨CustomHeader.zeroed, 42⟩]⟩,
        ⟨5, [⟨CustomHeader.zeroed, 42⟩]⟩, false⟩ : System Nat).conn.drainAll.getLast? =
        some smp ∧ smp.payload = 42 :=
  publish_receive_roundtrip
    ⟨⟨⟨[SlotState.Free]⟩, 1, 0⟩, ⟨4, []⟩, ⟨5, []⟩, false⟩
    ⟨⟨⟨[SlotState.InFlight]⟩, 1, 0⟩, ⟨4, [⟨CustomHeader.zeroed, 42⟩]⟩,
      ⟨5, [⟨CustomHeader.zeroed, 42⟩]⟩, false⟩ 42 rfl

/-- C8: for every `n`, one iteration of the `publisher.cpp` loop — set the
user-header to `{version := 123, timestamp := 80337 + n}`, write payload `n`,
send — delivers to the subscriber a sample whose header and payload are
exactly those values. -/
theorem user_header_roundtrip (sys sys' : System Nat) (n : Nat)
    (h : publisherIteration sys n = .ok sys') :
    sys'.conn.drainAll.getLast? = some ⟨⟨123, 80337 + n⟩, n⟩ := by
  simp only [publisherIteration] at h
  split at h
  · cases h
  · rename_i sample pub' hl
    split at h
    · cases h
    · rename_i sysX hs
      simp only [Except.ok.injEq] at h
      subst h
      have hd := send_ok_drain _ _ _ hs
      simpa [SampleMut.write_payload] using hd

theorem user_header_roundtrip_witness :
    (⟨⟨⟨[SlotState.InFlight]⟩, 1, 0⟩, ⟨4, [⟨⟨123, 80338⟩, 1⟩]⟩,
      ⟨5, [⟨⟨123, 80338⟩, 1⟩]⟩, false⟩ : System Nat).conn.drainAll.getLast? =
      some ⟨⟨123, 80337 + 1⟩, 1⟩ :=
  user_header_roundtrip
    ⟨⟨⟨[SlotState.Free]⟩, 1, 0⟩, ⟨4, []⟩, ⟨5, []⟩, false⟩
    ⟨⟨⟨[SlotState.InFlight]⟩, 1, 0⟩, ⟨4, [⟨⟨123, 80338⟩, 1⟩]⟩,
      ⟨5, [⟨⟨123, 80338⟩, 1⟩]⟩, false⟩ 1 rfl

theorem full_queue_send_behaviour_witness :
    (sendToAll false [⟨1, [5]⟩, ⟨2, []⟩] 7)[0]? = some (.error .ConnectionBufferFull) ∧
    (sendToAll false [⟨1, [5]⟩, ⟨2, []⟩] 7)[1]? = some (.ok ⟨2, [7]⟩) ∧
    (⟨1, [5]⟩ : SpscQueue Nat).push true 7 = .ok ⟨1, [7]⟩ :=
  ⟨full_queue_send_behaviour.1 [⟨1, [5]⟩, ⟨2, []⟩] 7 0 ⟨1, [5]⟩ (by decide) (by decide),
   full_queue_send_behaviour.2.1 false [⟨1, [5]⟩, ⟨2, []⟩] 7 1 ⟨2, []⟩ (by decide) (by decide),
   full_queue_send_behaviour.2.2.1 ⟨1, [5]⟩ 7 (by decide)⟩

theorem oc_ok_lookup {d : Directory} {desc : ServiceDescriptor} {d' : Directory}
    {aid : Nat} (h : d.open_or_create desc = (d', .ok aid)) :
    ∃ rc, d'.lookup desc.name = some (desc, aid, rc) := by
  unfold Directory.open_or_create at h
  cases hl : d.lookup desc.name with
  | none =>
    rw [hl] at h
    rw [Prod.mk.injEq] at h
    obtain ⟨hd, ha⟩ := h
    rw [Except.ok.injEq] at ha
    subst ha
    subst hd
    exact ⟨1, by simp⟩
  | some tri =>
    obtain ⟨existing, aid0, rc⟩ := tri
    rw [hl] at h
    by_cases hs : existing = desc
    · subst hs
      simp at h
      obtain ⟨hd, ha⟩ := h
      subst ha
      subst hd
      exact ⟨rc + 1, by simp⟩
    · exfalso
      by_cases hC : existing.messaging_pattern = desc.messaging_pattern ∧
          existing.payload_type_id = desc.payload_type_id ∧
          existing.user_header_type_id = desc.user_header_type_id <;>
        simp [hs, hC] at h

theorem oc_attach_same {d' : Directory} {desc : ServiceDescriptor} {aid rc : Nat}
    (h : d'.lookup desc.name = some (desc, aid, rc)) :
    d'.open_or_create desc =
      (⟨fun n => if n = desc.name then some (desc, aid, rc + 1) else d'.lookup n,
        d'.nextId⟩, .ok aid) := by
  unfold Directory.open_or_create
  rw [h]
  simp

theorem ocRepeat_all_ok (desc : ServiceDescriptor) (aid : Nat) :
    ∀ (n : Nat) (d' : Directory) (rc : Nat),
      d'.lookup desc.name = some (desc, aid, rc) →
      ∀ r ∈ (ocRepeat d' desc n).2, r = .ok aid := by
  intro n
  induction n with
  | zero =>
    intro d' rc h r hr
    simp [ocRepeat] at hr
  | succ k ih =>
    intro d' rc h r hr
    rw [ocRepeat] at hr
    rw [oc_attach_same h] at hr
    simp only [List.mem_cons] at hr
    rcases hr with hr | hr
    · exact hr
    · exact ih _ (rc + 1) (by simp) r hr

/-- C4: starting from any directory state, a successful `open_or_create`
makes every further `open_or_create` on the same ServiceName succeed and
attach to the same artifact exactly when the descriptor is bit-identical:
an identical descriptor attaches to the created artifact; two successes on
one name force bit-identical descriptors and the same artifact; a differing
descriptor fails with `IncompatibleTypes` or `IncompatibleConfig`; and any
number of further callers with the identical descriptor (concurrency modelled
as an arbitrary sequential interleaving of their lock-guarded critical
sections) all attach to that same artifact. -/
theorem open_or_create_compatibility :
    (∀ (d : Directory) (desc : ServiceDescriptor) (d' : Directory) (aid : Nat),
        d.open_or_create desc = (d', .ok aid) →
        ∃ d'', d'.open_or_create desc = (d'', .ok aid)) ∧
    (∀ (d : Directory) (desc1 desc2 : ServiceDescriptor) (d' d'' : Directory)
        (a1 a2 : Nat),
        desc2.name = desc1.name →
        d.open_or_create desc1 = (d', .ok a1) →
        d'.open_or_create desc2 = (d'', .ok a2) →
        desc2 = desc1 ∧ a2 = a1) ∧
    (∀ (d : Directory) (desc1 desc2 : ServiceDescriptor) (d' : Directory) (aid : Nat),
        desc2.name = desc1.name → desc2 ≠ desc1 →
        d.open_or_create desc1 = (d', .ok aid) →
        (d'.open_or_create desc2).2 = .error .IncompatibleTypes ∨
        (d'.open_or_create desc2).2 = .error .IncompatibleConfig) ∧
    (∀ (d : Directory) (desc : ServiceDescriptor) (d' : Directory) (aid : Nat),
        d.open_or_create desc = (d', .ok aid) →
        ∀ n, ∀ r ∈ (ocRepeat d' desc n).2, r = .ok aid) := by
  refine ⟨?_, ?_, ?_, ?_⟩
  · intro d desc d' aid h
    obtain ⟨rc, hl⟩ := oc_ok_lookup h
    exact ⟨_, oc_attach_same hl⟩
  · intro d desc1 desc2 d' d'' a1 a2 hn h1 h2
    obtain ⟨rc, hl⟩ := oc_ok_lookup h1
    unfold Directory.open_or_create at h2
    rw [hn, hl] at h2
    by_cases hs : desc1 = desc2
    · subst hs
      simp at h2
      exact ⟨rfl, h2.2.symm⟩
    · exfalso
      by_cases hC : desc1.messaging_pattern = desc2.messaging_pattern ∧
          desc1.payload_type_id = desc2.payload_type_id ∧
          desc1.user_header_type_id = desc2.user_header_type_id <;>
        simp [hs, hC] at h2
  · intro d desc1 desc2 d' aid hn hne h1
    obtain ⟨rc, hl⟩ := oc_ok_lookup h1
    have hne' : desc1 ≠ desc2 := fun hc => hne hc.symm
    unfold Directory.open_or_create
    rw [hn, hl]
    by_cases hC : desc1.messaging_pattern = desc2.messaging_pattern ∧
        desc1.payload_type_id = desc2.payload_type_id ∧
        desc1.user_header_type_id = desc2.user_header_type_id
    · right
      simp [hne', hC]
    · left
      simp [hne', hC]
  · intro d desc d' aid h n
    obtain ⟨rc, hl⟩ := oc_ok_lookup h
    exact ocRepeat_all_ok desc aid n d' rc hl

theorem open_or_create_compatibility_witness :
    (∃ d'', dirAfterCreate.open_or_create descPubSub = (d'', .ok 0)) ∧
    ((dirAfterCreate.open_or_create descPubSub64).2 = .error .IncompatibleTypes ∨
      (dirAfterCreate.open_or_create descPubSub64).2 = .error .IncompatibleConfig) :=
  ⟨open_or_create_compatibility.1 emptyDirectory descPubSub dirAfterCreate 0 rfl,
   open_or_create_compatibility.2.2.1 emptyDirectory descPubSub descPubSub64
     dirAfterCreate 0 rfl
     (by intro hc; simp [descPubSub64, descPubSub] at hc) rfl⟩

theorem listMin_mem {l : List Nat} {m : Nat} (h : listMin l = some m) : m ∈ l := by
  induction l generalizing m with
  | nil => cases h
  | cons x rest ih =>
    unfold listMin at h
    cases hr : listMin rest with
    | none =>
      rw [hr] at h
      rw [Option.some.injEq] at h
      subst h
      exact List.mem_cons_self x rest
    | some k =>
      rw [hr] at h
      rw [Option.some.injEq] at h
      subst h
      rcases min_choice x k with hc | hc <;> rw [hc]
      · exact List.mem_cons_self x rest
      · exact List.mem_cons_of_mem x (ih hr)

theorem runEvents_received_subset (ops : List EventOp) :
    ∀ (s : EventService) (x : Nat),
      x ∈ (runEvents s ops).2 →
      x ∈ s.pending ∨ x ∈ okNotified s.event_id_max_value ops := by
  induction ops with
  | nil =>
    intro s x hx
    simp [runEvents] at hx
  | cons op ops ih =>
    intro s x hx
    cases op with
    | notifyOp id =>
      rw [runEvents] at hx
      by_cases hid : id ≤ s.event_id_max_value
      · have hnot : (s.notify id).1 =
            ⟨s.event_id_max_value,
              if id ∈ s.pending then s.pending else s.pending ++ [id]⟩ := by
          simp [EventService.notify, Nat.not_lt.2 hid]
        rw [hnot] at hx
        rcases ih _ x hx with hp | ho
        · simp only at hp
          by_cases hmem : id ∈ s.pending
          · rw [if_pos hmem] at hp
            exact Or.inl hp
          · rw [if_neg hmem] at hp
            rcases List.mem_append.1 hp with h1 | h1
            · exact Or.inl h1
            · right
              simp only [List.mem_singleton] at h1
              subst h1
              simp [okNotified, hid]
        · right
          simp only at ho
          simp [okNotified, hid, ho]
      · have hnot : (s.notify id).1 = s := by
          simp [EventService.notify, Nat.lt_of_not_le hid]
        rw [hnot] at hx
        rcases ih s x hx with hp | ho
        · exact Or.inl hp
        · right
          simpa [okNotified, hid] using ho
    | waitOp =>
      rw [runEvents] at hx
      cases hw : listMin s.pending with
      | none =>
        have ht : s.tryWaitOne = (s, none) := by
          simp [EventService.tryWaitOne, hw]
        rw [ht] at hx
        rcases ih s x hx with hp | ho
        · exact Or.inl hp
        · right
          simpa [okNotified] using ho
      | some m =>
        have ht : s.tryWaitOne =
            (⟨s.event_id_max_value, s.pending.erase m⟩, some m) := by
          simp [EventService.tryWaitOne, hw]
        rw [ht] at hx
        simp only [List.mem_cons] at hx
        rcases hx with rfl | hx
        · exact Or.inl (listMin_mem hw)
        · rcases ih _ x hx with hp | ho
          · exact Or.inl (List.erase_subset m s.pending hp)
          · right
            simpa [okNotified] using ho

/-- C5: `notify(event_id)` with `event_id > event_id_max_value` is rejected at
the notifier with `EventIdOutOfRange` and delivers nothing (the pending state
is unchanged); and in every execution starting from an empty pending set, each
event id the listener receives is among the ids that were successfully
notified (equal pending ids coalesce). -/
theorem event_id_validation_and_subset :
    (∀ (s : EventService) (id : Nat), s.event_id_max_value < id →
        s.notify id = (s, .error .EventIdOutOfRange)) ∧
    (∀ (maxv : Nat) (ops : List EventOp) (x : Nat),
        x ∈ (runEvents ⟨maxv, []⟩ ops).2 → x ∈ okNotified maxv ops) := by
  refine ⟨?_, ?_⟩
  · intro s id h
    simp [EventService.notify, h]
  · intro maxv ops x hx
    rcases runEvents_received_subset ops ⟨maxv, []⟩ x hx with hp | ho
    · simp at hp
    · exact ho

theorem event_id_validation_and_subset_witness :
    EventService.notify ⟨10, []⟩ 11 = (⟨10, []⟩, .error .EventIdOutOfRange) ∧
    7 ∈ okNotified 10 [EventOp.notifyOp 7, EventOp.waitOp] :=
  ⟨event_id_validation_and_subset.1 ⟨10, []⟩ 11 (by decide),
   event_id_validation_and_subset.2 10 [EventOp.notifyOp 7, EventOp.waitOp] 7
     (by decide)⟩

end Iox2
